import Mathlib

/-!
# create-react-fast.mjs: the vite-config patch and the file-generation steps

A shallow embedding of `src/create-react-fast.mjs`.

* JavaScript strings are modelled as `List Char`.  The file is read with
  `fs.readFileSync(_, "utf-8")`, so the text is well formed; every needle and
  every character the regular expression names is ASCII, so working on code
  points instead of UTF-16 code units does not change any result.
* `pluginsRegex = /plugins:\s*\[(.*?)\]/s` is embedded as the list of its
  terms, run by a backtracking matcher (`matchTerms`: greedy and lazy
  repetition with the priorities of a JavaScript regular expression);
  `matchHere` is one attempt at a fixed start index and `pluginsRegexExec` the
  leftmost search over all start indices.
* The script's side effects (console output, `mkdirSync`, `writeFileSync`)
  are embedded as a trace of `Effect`s, produced from the state of the file
  system the script observes (`existsSync`, `readFileSync`).
-/

namespace CreateReactFast

/-! ## Strings -/

/-- The characters matched by `\s` in a JavaScript regular expression, which
are also the characters removed by `String.prototype.trim`: the ECMAScript
`WhiteSpace` and `LineTerminator` productions. -/
def isWhiteSpace (c : Char) : Bool :=
  let n := c.toNat
  n == 0x09 || n == 0x0A || n == 0x0B || n == 0x0C || n == 0x0D || n == 0x20 ||
  n == 0xA0 || n == 0x1680 || (0x2000 ≤ n && n ≤ 0x200A) ||
  n == 0x2028 || n == 0x2029 || n == 0x202F || n == 0x205F || n == 0x3000 ||
  n == 0xFEFF

/-- `s.includes(needle)`: does `needle` occur in `s` as a contiguous run? -/
def includes : List Char → List Char → Bool
  | [], needle => needle.isEmpty
  | c :: cs, needle => needle.isPrefixOf (c :: cs) || includes cs needle

/-- `s.trim()`: drop the white space at both ends. -/
def trim (s : List Char) : List Char :=
  (s.dropWhile isWhiteSpace).rdropWhile isWhiteSpace

/-- Match a literal at the start of the text; the rest of the text on success. -/
def stripLiteral : List Char → List Char → Option (List Char)
  | [], s => some s
  | _ :: _, [] => none
  | l :: ls, c :: cs => if c = l then stripLiteral ls cs else none

/-! ## The constants of the patch (lines 49-62) -/

/-- The module reference looked for on line 49. -/
def moduleToken : List Char := "@tailwindcss/vite".toList

/-- The import statement prepended on line 50, with its line break. -/
def importLine : List Char := "import tailwindcss from \"@tailwindcss/vite\";\n".toList

/-- The invocation looked for in the captured contents on line 57. -/
def invocationToken : List Char := "tailwindcss(".toList

/-- The literal `plugins:` the regular expression starts with. -/
def pluginsKey : List Char := "plugins:".toList

/-! ## `pluginsRegex = /plugins:\s*\[(.*?)\]/s` -/

/-- The single-character atoms of the pattern: a literal character (escaped or
not), `\s`, and `.` which with the `s` flag matches every character. -/
inductive CharSet where
  | char (c : Char)
  | space
  | dot
  deriving DecidableEq, Repr

/-- Does the atom accept the character? -/
def CharSet.test : CharSet → Char → Bool
  | CharSet.char c, x => x == c
  | CharSet.space, x => isWhiteSpace x
  | CharSet.dot, _ => true

/-- The terms of the pattern: an atom, an atom under the greedy `*`, and an
atom under the lazy `*?`. -/
inductive PatternTerm where
  | one (cs : CharSet)
  | star (cs : CharSet)
  | lazyStar (cs : CharSet)
  deriving DecidableEq, Repr

/-- The greedy `*` with the continuation `k` for the rest of the pattern: take
one more character if the atom accepts it and go on; only when that fails,
stop here and try the rest of the pattern.  The result is the text taken and
what the continuation returns. -/
def starLoop {R : Type} (cs : CharSet) (k : List Char → Option R) :
    List Char → Option (List Char × R)
  | [] => (k []).map (fun r => ([], r))
  | c :: rest =>
    if cs.test c then
      match starLoop cs k rest with
      | some (taken, r) => some (c :: taken, r)
      | none => (k (c :: rest)).map (fun r => ([], r))
    else (k (c :: rest)).map (fun r => ([], r))

/-- The lazy `*?` with the continuation `k` for the rest of the pattern: first
try the rest of the pattern here; only when that fails, take one more
character if the atom accepts it and go on. -/
def lazyLoop {R : Type} (cs : CharSet) (k : List Char → Option R) :
    List Char → Option (List Char × R)
  | [] => (k []).map (fun r => ([], r))
  | c :: rest =>
    match k (c :: rest) with
    | some r => some ([], r)
    | none =>
      if cs.test c then
        match lazyLoop cs k rest with
        | some (taken, r) => some (c :: taken, r)
        | none => none
      else none

/-- The backtracking matcher for a sequence of terms at the start of a text:
the first successful way of matching, in the order in which a JavaScript
regular expression tries them.  The result is the text taken by each term and
the text left. -/
def matchTerms : List PatternTerm → List Char → Option (List (List Char) × List Char)
  | [], s => some ([], s)
  | PatternTerm.one cs :: terms, s =>
    match s with
    | c :: rest =>
      if cs.test c then
        match matchTerms terms rest with
        | some (segments, left) => some ([c] :: segments, left)
        | none => none
      else none
    | [] => none
  | PatternTerm.star cs :: terms, s =>
    match starLoop cs (matchTerms terms) s with
    | some (taken, segments, left) => some (taken :: segments, left)
    | none => none
  | PatternTerm.lazyStar cs :: terms, s =>
    match lazyLoop cs (matchTerms terms) s with
    | some (taken, segments, left) => some (taken :: segments, left)
    | none => none

/-- The pattern of line 54, term by term: the eight characters of `plugins:`,
`\s*`, `\[`, `.*?` (the contents of capture group 1) and `\]`. -/
def pluginsRegex : List PatternTerm :=
  pluginsKey.map (fun c => PatternTerm.one (CharSet.char c)) ++
  [PatternTerm.star CharSet.space, PatternTerm.one (CharSet.char '['),
   PatternTerm.lazyStar CharSet.dot, PatternTerm.one (CharSet.char ']')]

/-- One attempt of `pluginsRegex` at the start of `s`: the white space taken
by `\s*`, capture group 1, and the text after the match. -/
def matchHere (s : List Char) : Option (List Char × List Char × List Char) :=
  match matchTerms pluginsRegex s with
  | some ([_, _, _, _, _, _, _, _, ws, _, inner, _], post) => some (ws, inner, post)
  | _ => none

/-- The same attempt written as one scan from left to right, without
backtracking (`matchHere_eq_scanLiteral`): the literal `plugins:`, the longest
run of white space, `[`, the text up to the first `]`, and that `]`. -/
def scanLiteral (s : List Char) : Option (List Char × List Char × List Char) :=
  match stripLiteral pluginsKey s with
  | none => none
  | some r =>
    match r.dropWhile isWhiteSpace with
    | '[' :: r2 =>
      match r2.dropWhile (fun c => c != ']') with
      | ']' :: post =>
        some (r.takeWhile isWhiteSpace, r2.takeWhile (fun c => c != ']'), post)
      | _ => none
    | _ => none

/-- A successful match of `pluginsRegex`: the text before the match, the white
space taken by `\s*`, the capture group, and the text after the match. -/
structure RegExpMatch where
  pre : List Char
  ws : List Char
  inner : List Char
  post : List Char
  deriving DecidableEq, Repr

/-- The matched substring (the callback's `match` argument). -/
def RegExpMatch.matched (m : RegExpMatch) : List Char :=
  pluginsKey ++ m.ws ++ '[' :: m.inner ++ [']']

/-- The search of a regular expression without the `g` flag: the start indices
are tried from left to right and the first successful attempt is the match. -/
def pluginsRegexExec : List Char → Option RegExpMatch
  | [] =>
    match matchHere [] with
    | some (ws, inner, post) => some ⟨[], ws, inner, post⟩
    | none => none
  | c :: cs =>
    match matchHere (c :: cs) with
    | some (ws, inner, post) => some ⟨[], ws, inner, post⟩
    | none =>
      match pluginsRegexExec cs with
      | some m => some ⟨c :: m.pre, m.ws, m.inner, m.post⟩
      | none => none

/-- No attempt of `pluginsRegex` succeeds at a start index inside `pre`, when
`pre` is followed by `x`. -/
def NoMatchInside (pre x : List Char) : Prop :=
  ∀ a b, pre = a ++ b → b ≠ [] → matchHere (b ++ x) = none

/-- `pluginsRegex.test(viteConfig)` (line 55). -/
def pluginsRegexTest (s : List Char) : Bool := (pluginsRegexExec s).isSome

/-! ## The patch (lines 48-69) -/

/-- The constant `newInner` of the callback (lines 59-61), from `trimmed`. -/
def newInner (trimmed : List Char) : List Char :=
  if trimmed.length != 0 then trimmed ++ ", tailwindcss()".toList
  else "tailwindcss()".toList

/-- The callback of `replace` (lines 56-63). -/
def replacer (matched inner : List Char) : List Char :=
  if includes inner invocationToken then matched -- already added
  else
    let trimmed := trim inner
    "plugins: [".toList ++ newInner trimmed ++ "]".toList

/-- `viteConfig.replace(pluginsRegex, callback)`: the first match is replaced
by what the callback returns (inserted as is, a function's result is not
scanned for `$` patterns); without a match the text is returned as it is. -/
def replacePlugins (s : List Char) : List Char :=
  match pluginsRegexExec s with
  | some m => m.pre ++ replacer m.matched m.inner ++ m.post
  | none => s

/-- Lines 48-51: add the import if the module reference is missing. -/
def addImport (viteConfig : List Char) : List Char :=
  if !includes viteConfig moduleToken then importLine ++ viteConfig else viteConfig

/-- Which console call the registration step makes: `console.log` on line 64
or `console.warn` on line 66. -/
inductive Signal where
  | updated
  | warned
  deriving DecidableEq, Repr

/-- Lines 53-69: the registration step, with the console call it makes. -/
def addPlugin (viteConfig : List Char) : List Char × Signal :=
  if pluginsRegexTest viteConfig then (replacePlugins viteConfig, Signal.updated)
  else (viteConfig, Signal.warned)

/-- Lines 48-69: the text written back on line 71, and the console call. -/
def patchViteConfig (viteConfig : List Char) : List Char × Signal :=
  addPlugin (addImport viteConfig)

/-! ## The templates -/

/-- The stylesheet written in step 7 (lines 78-83). -/
def indexCssContent : List Char :=
  (String.join [
    "@import \"tailwindcss\";\n",
    "\n",
    "body \x7b\n",
    "  @apply bg-slate-950 text-slate-50 antialiased;\n",
    "\x7d\n"]).toList

/-- The routing table written in step 9 (lines 103-120). -/
def appRoutesContent : List Char :=
  (String.join [
    "import \x7b Routes, Route \x7d from \"react-router-dom\";\n",
    "import MainLayout from \"../layouts/MainLayout.jsx\";\n",
    "import Home from \"../pages/Home.jsx\";\n",
    "import About from \"../pages/About.jsx\";\n",
    "import NotFound from \"../pages/NotFound.jsx\";\n",
    "\n",
    "export default function AppRoutes() \x7b\n",
    "  return (\n",
    "    <Routes>\n",
    "      <Route element=\x7b<MainLayout />\x7d>\n",
    "        <Route path=\"/\" element=\x7b<Home />\x7d />\n",
    "        <Route path=\"/about\" element=\x7b<About />\x7d />\n",
    "      </Route>\n",
    "      <Route path=\"*\" element=\x7b<NotFound />\x7d />\n",
    "    </Routes>\n",
    "  );\n",
    "\x7d\n"]).toList

/-- The layout written in step 10 (lines 126-163). -/
def mainLayoutContent : List Char :=
  (String.join [
    "import \x7b NavLink, Outlet \x7d from \"react-router-dom\";\n",
    "\n",
    "export default function MainLayout() \x7b\n",
    "  return (\n",
    "    <div className=\"min-h-screen bg-slate-950 text-slate-50\">\n",
    "      <header className=\"border-b border-slate-800\">\n",
    "        <nav className=\"mx-auto flex max-w-5xl items-center justify-between px-4 py-3\">\n",
    "          <span className=\"text-lg font-bold text-teal-400\">\n",
    "            Fast React Starter\n",
    "          </span>\n",
    "          <div className=\"flex gap-4 text-sm\">\n",
    "            <NavLink\n",
    "              to=\"/\"\n",
    "              className=\x7b(\x7b isActive \x7d) =>\n",
    "                \x60hover:text-teal-300 $\x7bisActive ? \"text-teal-400 font-semibold\" : \"text-slate-200\"\x7d\x60\n",
    "              \x7d\n",
    "            >\n",
    "              Home\n",
    "            </NavLink>\n",
    "            <NavLink\n",
    "              to=\"/about\"\n",
    "              className=\x7b(\x7b isActive \x7d) =>\n",
    "                \x60hover:text-teal-300 $\x7bisActive ? \"text-teal-400 font-semibold\" : \"text-slate-200\"\x7d\x60\n",
    "              \x7d\n",
    "            >\n",
    "              About\n",
    "            </NavLink>\n",
    "          </div>\n",
    "        </nav>\n",
    "      </header>\n",
    "\n",
    "      <main className=\"mx-auto max-w-5xl px-4 py-8\">\n",
    "        <Outlet />\n",
    "      </main>\n",
    "    </div>\n",
    "  );\n",
    "\x7d\n"]).toList

/-- The home page written in step 11 (lines 169-202). -/
def homeContent : List Char :=
  (String.join [
    "export default function Home() \x7b\n",
    "  return (\n",
    "    <section className=\"space-y-4\">\n",
    "      <h1 className=\"text-3xl font-bold tracking-tight text-teal-400\">\n",
    "        Welcome 👋\n",
    "      </h1>\n",
    "      <p className=\"text-slate-200\">\n",
    "        This starter comes with React, Vite, Tailwind CSS v4, React Router, and Axios\n",
    "        pre-configured so you can start building instantly.\n",
    "      </p>\n",
    "      <div className=\"grid gap-4 md:grid-cols-3\">\n",
    "        <div className=\"rounded-xl border border-slate-800 bg-slate-900/40 p-4\">\n",
    "          <h2 className=\"text-lg font-semibold text-slate-50\">Tailwind Ready</h2>\n",
    "          <p className=\"mt-1 text-sm text-slate-400\">\n",
    "            Utility classes are available via <code className=\"font-mono\">@import \"tailwindcss\"</code> in <code className=\"font-mono\">index.css</code>.\n",
    "          </p>\n",
    "        </div>\n",
    "        <div className=\"rounded-xl border border-slate-800 bg-slate-900/40 p-4\">\n",
    "          <h2 className=\"text-lg font-semibold text-slate-50\">Routing Setup</h2>\n",
    "          <p className=\"mt-1 text-sm text-slate-400\">\n",
    "            Manage routes in <code className=\"font-mono\">src/routes/AppRoutes.jsx</code>.\n",
    "          </p>\n",
    "        </div>\n",
    "        <div className=\"rounded-xl border border-slate-800 bg-slate-900/40 p-4\">\n",
    "          <h2 className=\"text-lg font-semibold text-slate-50\">API Ready</h2>\n",
    "          <p className=\"mt-1 text-sm text-slate-400\">\n",
    "            Use <code className=\"font-mono\">axios</code> for API calls anywhere in your app.\n",
    "          </p>\n",
    "        </div>\n",
    "      </div>\n",
    "    </section>\n",
    "  );\n",
    "\x7d\n"]).toList

/-- The about page written in step 12 (lines 208-222). -/
def aboutContent : List Char :=
  (String.join [
    "export default function About() \x7b\n",
    "  return (\n",
    "    <section className=\"space-y-4\">\n",
    "      <h1 className=\"text-2xl font-bold tracking-tight text-teal-400\">\n",
    "        About this template\n",
    "      </h1>\n",
    "      <p className=\"text-slate-200 text-sm leading-relaxed\">\n",
    "        This is a minimal starter wired for fast frontend prototyping: Tailwind v4 for styling,\n",
    "        React Router for navigation, and Axios for API calls. Customize the layout,\n",
    "        pages, and components to match your project\x27s needs.\n",
    "      </p>\n",
    "    </section>\n",
    "  );\n",
    "\x7d\n"]).toList

/-- The not-found page written in step 13 (lines 228-248). -/
def notFoundContent : List Char :=
  (String.join [
    "import \x7b Link \x7d from \"react-router-dom\";\n",
    "\n",
    "export default function NotFound() \x7b\n",
    "  return (\n",
    "    <section className=\"space-y-4\">\n",
    "      <h1 className=\"text-3xl font-bold tracking-tight text-red-400\">\n",
    "        404 – Page not found\n",
    "      </h1>\n",
    "      <p className=\"text-slate-300\">\n",
    "        The page you are looking for does not exist.\n",
    "      </p>\n",
    "      <Link\n",
    "        to=\"/\"\n",
    "        className=\"inline-flex items-center rounded-lg border border-teal-500 px-4 py-2 text-sm font-medium text-teal-200 hover:bg-teal-500/10\"\n",
    "      >\n",
    "        ← Back to home\n",
    "      </Link>\n",
    "    </section>\n",
    "  );\n",
    "\x7d\n"]).toList

/-- The application root written on line 260 (lines 254-259). -/
def appContent : List Char :=
  (String.join [
    "import AppRoutes from \"./routes/AppRoutes.jsx\";\n",
    "\n",
    "export default function App() \x7b\n",
    "  return <AppRoutes />;\n",
    "\x7d\n"]).toList

/-- The entry point written in step 14 (lines 267-280). -/
def mainContent : List Char :=
  (String.join [
    "import React from \"react\";\n",
    "import ReactDOM from \"react-dom/client\";\n",
    "import \x7b BrowserRouter \x7d from \"react-router-dom\";\n",
    "import App from \"./App.jsx\";\n",
    "import \"./index.css\";\n",
    "\n",
    "ReactDOM.createRoot(document.getElementById(\"root\")).render(\n",
    "  <React.StrictMode>\n",
    "    <BrowserRouter>\n",
    "      <App />\n",
    "    </BrowserRouter>\n",
    "  </React.StrictMode>\n",
    ");\n"]).toList

/-! ## The script -/

/-- A path, as the list of the segments joined by `path.join`. -/
abbrev Path := List String

/-- What the script does to the outside world, in the order it does it:
`console.log`, `console.warn`, `execSync(cmd, ...)`, `process.chdir`,
`fs.mkdirSync` (called with `recursive: true`) and `fs.writeFileSync`. -/
inductive Effect where
  | log (message : String)
  | warn (message : String)
  | execSync (cmd : String)
  | chdir (directory : String)
  | mkdirSync (path : Path)
  | writeFileSync (path : Path) (content : List Char)
  deriving DecidableEq, Repr

/-- The part of the file system the script reads once it is inside the
project folder: which paths exist, and the text of a file.  The script only
asks for paths it has not written itself before, so one snapshot serves for
the whole run. -/
structure FileSystem where
  existsSync : Path → Bool
  readFileSync : Path → List Char

/-- The helper `run` (lines 7-10). -/
def run (cmd : String) : List Effect :=
  [Effect.log ("\n▶ Running: " ++ cmd), Effect.execSync cmd]

/-- The project name (line 13): `process.argv[2] || "my-react-app"`; an absent
or empty argument gives the default. -/
def projectName (argument : Option String) : String :=
  match argument with
  | some name => if name = "" then "my-react-app" else name
  | none => "my-react-app"

/-- Lines 15-32: the banner, the project skeleton, the change of directory and
the three installs. -/
def setupSteps (projectName : String) : List Effect :=
  [Effect.log "\n🚀 React + Vite + Tailwind v4 + Router Quick Starter",
   Effect.log ("📁 Project name: " ++ projectName),
   Effect.log "ℹ️ When Vite asks \x27Install with npm and start now?\x27, choose NO.\n"] ++
  run ("npm create vite@latest " ++ projectName ++ " -- --template react") ++
  [Effect.chdir projectName] ++
  run "npm install" ++
  run "npm install -D tailwindcss @tailwindcss/vite" ++
  run "npm install axios react-router-dom"

/-- The first candidate name of the configuration file (line 35). -/
def viteConfigJs : String := "vite.config.js"

/-- The second candidate name of the configuration file (line 36). -/
def viteConfigTs : String := "vite.config.ts"

/-- Lines 37-43: the configuration file that exists, the `.js` name first. -/
def viteConfigFile (fs : FileSystem) : Option String :=
  if fs.existsSync [viteConfigJs] then some viteConfigJs
  else if fs.existsSync [viteConfigTs] then some viteConfigTs
  else none

/-- The console call of the registration step (lines 64 and 66-68). -/
def signalEffect (viteConfigFile : String) : Signal → Effect
  | Signal.updated => Effect.log ("✅ Updated " ++ viteConfigFile ++ " with @tailwindcss/vite plugin")
  | Signal.warned => Effect.warn ("⚠️ Could not find plugins array in " ++ viteConfigFile ++ " to add tailwindcss plugin.")

/-- Step 6 (lines 45-74): patch the configuration file and write it back, or
warn that there is none. -/
def viteConfigStep (fs : FileSystem) : List Effect :=
  match viteConfigFile fs with
  | some file =>
    let patched := patchViteConfig (fs.readFileSync [file])
    [signalEffect file patched.2, Effect.writeFileSync [file] patched.1]
  | none => [Effect.warn "⚠️ No vite.config.js/ts found; skipping Tailwind plugin setup."]

/-- The stylesheet entry point (line 77). -/
def indexCssPath : Path := ["src", "index.css"]

/-- Step 7 (lines 85-90): overwrite the stylesheet entry point if it exists. -/
def indexCssStep (fs : FileSystem) : List Effect :=
  if fs.existsSync indexCssPath then
    [Effect.writeFileSync indexCssPath indexCssContent, Effect.log "✅ Updated src/index.css with Tailwind v4 import and base styles"]
  else [Effect.warn "⚠️ src/index.css not found; skipping Tailwind CSS setup."]

/-- The routes folder (line 93). -/
def routesDir : Path := ["src", "routes"]

/-- The layouts folder (line 94). -/
def layoutsDir : Path := ["src", "layouts"]

/-- The pages folder (line 95). -/
def pagesDir : Path := ["src", "pages"]

/-- The path of the routing table (line 102). -/
def appRoutesPath : Path := routesDir ++ ["AppRoutes.jsx"]

/-- The path of the layout (line 125). -/
def mainLayoutPath : Path := layoutsDir ++ ["MainLayout.jsx"]

/-- The path of the home page (line 168). -/
def homePath : Path := pagesDir ++ ["Home.jsx"]

/-- The path of the about page (line 207). -/
def aboutPath : Path := pagesDir ++ ["About.jsx"]

/-- The path of the not-found page (line 227). -/
def notFoundPath : Path := pagesDir ++ ["NotFound.jsx"]

/-- The path of the application root (line 253). -/
def appPath : Path := ["src", "App.jsx"]

/-- The path of the entry point (line 265). -/
def mainPath : Path := ["src", "main.jsx"]

/-- Steps 8-13 and the application root (lines 92-261): no call is guarded by
a condition. -/
def generateFiles : List Effect :=
  [Effect.mkdirSync routesDir,
   Effect.mkdirSync layoutsDir,
   Effect.mkdirSync pagesDir,
   Effect.writeFileSync appRoutesPath appRoutesContent,
   Effect.log "✅ Created src/routes/AppRoutes.jsx",
   Effect.writeFileSync mainLayoutPath mainLayoutContent,
   Effect.log "✅ Created src/layouts/MainLayout.jsx",
   Effect.writeFileSync homePath homeContent,
   Effect.log "✅ Created src/pages/Home.jsx",
   Effect.writeFileSync aboutPath aboutContent,
   Effect.log "✅ Created src/pages/About.jsx",
   Effect.writeFileSync notFoundPath notFoundContent,
   Effect.log "✅ Created src/pages/NotFound.jsx",
   Effect.writeFileSync appPath appContent,
   Effect.log "✅ Created src/App.jsx"]

/-- Step 14 (lines 266-285): overwrite the entry point if it exists. -/
def mainStep (fs : FileSystem) : List Effect :=
  if fs.existsSync mainPath then
    [Effect.writeFileSync mainPath mainContent, Effect.log "✅ Updated src/main.jsx with BrowserRouter and AppRoutes"]
  else [Effect.warn "⚠️ src/main.jsx not found; skipping Router setup."]

/-- The closing message (lines 287-299). -/
def closingMessage (projectName : String) : String :=
  "\n🎉 Setup complete!\n\nNext steps:\n  cd " ++ projectName ++ "\n  npm run dev\n\nYou now have:\n  - React + Vite\n  - Tailwind CSS v4 (via @tailwindcss/vite)\n  - React Router with basic pages\n  - Axios installed for API calls\n"

/-- The whole script, for a run in which no call throws: the effects from the
first line to the last, given the command-line argument and the file system
found in the project folder. -/
def script (argument : Option String) (fs : FileSystem) : List Effect :=
  setupSteps (projectName argument) ++
  viteConfigStep fs ++
  indexCssStep fs ++
  generateFiles ++
  mainStep fs ++
  [Effect.log (closingMessage (projectName argument))]

/-- The folders created by a run, in order. -/
def createdDirectories : List Effect → List Path
  | [] => []
  | Effect.mkdirSync p :: rest => p :: createdDirectories rest
  | _ :: rest => createdDirectories rest

/-- The files written by a run, in order. -/
def writtenFiles : List Effect → List Path
  | [] => []
  | Effect.writeFileSync p _ :: rest => p :: writtenFiles rest
  | _ :: rest => writtenFiles rest

/-- Is the file directly inside one of the three generated folders? -/
def insideGeneratedFolder (p : Path) : Bool :=
  [routesDir, layoutsDir, pagesDir].contains p.dropLast

/-! ## Lists -/

theorem includes_iff (s n : List Char) : includes s n = true ↔ n <:+: s := by
  induction s with
  | nil => simp [includes, List.isEmpty_iff]
  | cons c cs ih =>
    simp only [includes, Bool.or_eq_true, ih, List.infix_cons_iff, List.isPrefixOf_iff_prefix]

theorem includes_eq_false_iff (s n : List Char) : includes s n = false ↔ ¬ n <:+: s := by
  rw [← includes_iff]; simp

theorem prefix_of_prefix_append_cons {tok a b : List Char} {c : Char}
    (h : tok <+: a ++ c :: b) (hc : c ∉ tok) : tok <+: a := by
  induction tok generalizing a with
  | nil => exact List.nil_prefix
  | cons x xs ih =>
    cases a with
    | nil =>
      simp only [List.nil_append, List.cons_prefix_cons] at h
      exact absurd (by simp [h.1]) hc
    | cons y ys =>
      simp only [List.cons_append, List.cons_prefix_cons] at h ⊢
      exact ⟨h.1, ih h.2 (fun hm => hc (List.mem_cons_of_mem _ hm))⟩

theorem infix_split {tok a b : List Char} {c : Char}
    (h : tok <:+: a ++ c :: b) (hc : c ∉ tok) : tok <:+: a ∨ tok <:+: b := by
  induction a with
  | nil =>
    simp only [List.nil_append, List.infix_cons_iff] at h
    rcases h with h | h
    · left
      have := prefix_of_prefix_append_cons (a := []) (by simpa using h) hc
      exact this.isInfix
    · exact Or.inr h
  | cons y ys ih =>
    simp only [List.cons_append, List.infix_cons_iff] at h
    rcases h with h | h
    · left
      have := prefix_of_prefix_append_cons (a := y :: ys) (by simpa using h) hc
      exact this.isInfix
    · rcases ih h with h | h
      · exact Or.inl (h.trans (List.suffix_cons _ _).isInfix)
      · exact Or.inr h

theorem infix_dropWhile {tok s : List Char} {p : Char → Bool} (hne : tok ≠ [])
    (hp : ∀ c ∈ tok, p c = false) (h : tok <:+: s) : tok <:+: s.dropWhile p := by
  induction s with
  | nil => simpa using h
  | cons x xs ih =>
    by_cases hx : p x = true
    · rw [List.dropWhile_cons_of_pos hx]
      rw [List.infix_cons_iff] at h
      rcases h with h | h
      · cases tok with
        | nil => exact absurd rfl hne
        | cons t ts =>
          rw [List.cons_prefix_cons] at h
          have := hp t (List.mem_cons_self _ _)
          rw [h.1, hx] at this
          exact absurd this (by simp)
      · exact ih h
    · rw [List.dropWhile_cons_of_neg hx]; exact h

theorem infix_rdropWhile {tok s : List Char} {p : Char → Bool} (hne : tok ≠ [])
    (hp : ∀ c ∈ tok, p c = false) (h : tok <:+: s) : tok <:+: s.rdropWhile p := by
  have h1 : tok.reverse <:+: s.reverse.dropWhile p :=
    infix_dropWhile (by simpa using hne) (by simpa using hp) (List.reverse_infix.mpr h)
  have := List.reverse_infix.mpr h1
  simpa [List.rdropWhile] using this

theorem infix_trim {tok s : List Char} (hne : tok ≠ [])
    (hp : ∀ c ∈ tok, isWhiteSpace c = false) (h : tok <:+: s) : tok <:+: trim s :=
  infix_rdropWhile hne hp (infix_dropWhile hne hp h)

theorem trim_sublist (s : List Char) : (trim s).Sublist s :=
  ((List.rdropWhile_prefix _ _).sublist).trans (List.dropWhile_suffix _).sublist

theorem not_mem_trim {s : List Char} {c : Char} (h : c ∉ s) : c ∉ trim s :=
  fun hm => h ((trim_sublist s).subset hm)

theorem trim_eq_nil {s : List Char} (h : ∀ c ∈ s, isWhiteSpace c = true) : trim s = [] := by
  have : s.dropWhile isWhiteSpace = [] := by simpa using h
  simp [trim, this]

theorem trim_ne_nil {s : List Char} (h : ∃ c ∈ s, isWhiteSpace c = false) : trim s ≠ [] := by
  obtain ⟨c, hc, hw⟩ := h
  obtain ⟨a, b, rfl⟩ := List.append_of_mem hc
  have h1 : [c] <:+: trim (a ++ c :: b) :=
    infix_trim (by simp) (by simpa using hw) ⟨a, b, by simp⟩
  intro h0
  rw [h0] at h1
  simp at h1

/-! ## The matcher -/

theorem stripLiteral_eq_some_iff (lit s r : List Char) :
    stripLiteral lit s = some r ↔ s = lit ++ r := by
  induction lit generalizing s with
  | nil => simp [stripLiteral, eq_comm]
  | cons l ls ih =>
    cases s with
    | nil => simp [stripLiteral]
    | cons c cs =>
      by_cases h : c = l
      · simp [stripLiteral, h, ih]
      · simp [stripLiteral, h]

theorem dropWhile_ne_bracket (l : List Char) :
    l.dropWhile (fun c => c != ']') = [] ∨
      ∃ post, l.dropWhile (fun c => c != ']') = ']' :: post := by
  induction l with
  | nil => simp
  | cons x xs ih =>
    by_cases hx : x = ']'
    · right; exact ⟨xs, by simp [hx]⟩
    · rw [List.dropWhile_cons_of_pos (by simpa using hx)]; exact ih

theorem dropWhile_ne_bracket_of_mem {l : List Char} (h : ']' ∈ l) :
    ∃ post, l.dropWhile (fun c => c != ']') = ']' :: post := by
  rcases dropWhile_ne_bracket l with h0 | h0
  · rw [List.dropWhile_eq_nil_iff] at h0
    have := h0 _ h
    simp at this
  · exact h0

theorem span_bracket {inner post : List Char} (h : ']' ∉ inner) :
    (inner ++ ']' :: post).takeWhile (fun c => c != ']') = inner ∧
    (inner ++ ']' :: post).dropWhile (fun c => c != ']') = ']' :: post := by
  have hp : ∀ a ∈ inner, (fun c => c != ']') a = true := by
    intro a ha
    have : a ≠ ']' := fun e => h (e ▸ ha)
    simpa using this
  constructor
  · rw [List.takeWhile_append_of_pos hp]; simp
  · rw [List.dropWhile_append_of_pos hp]; simp

theorem span_whiteSpace {ws rest : List Char} (h : ∀ c ∈ ws, isWhiteSpace c = true) :
    (ws ++ '[' :: rest).takeWhile isWhiteSpace = ws ∧
    (ws ++ '[' :: rest).dropWhile isWhiteSpace = '[' :: rest := by
  have h0 : isWhiteSpace '[' = false := by decide
  constructor
  · rw [List.takeWhile_append_of_pos h]; simp [h0]
  · rw [List.dropWhile_append_of_pos h]; simp [h0]

/-! ## The backtracking matcher on `pluginsRegex` -/

theorem matchTerms_one (cs : CharSet) (terms : List PatternTerm) (c : Char) (rest : List Char) :
    matchTerms (PatternTerm.one cs :: terms) (c :: rest) =
      if cs.test c then
        match matchTerms terms rest with
        | some (segments, left) => some ([c] :: segments, left)
        | none => none
      else none := by
  simp [matchTerms]

theorem matchTerms_star (cs : CharSet) (terms : List PatternTerm) (s : List Char) :
    matchTerms (PatternTerm.star cs :: terms) s =
      match starLoop cs (matchTerms terms) s with
      | some (taken, segments, left) => some (taken :: segments, left)
      | none => none := by
  rw [matchTerms]

theorem matchTerms_lazyStar (cs : CharSet) (terms : List PatternTerm) (s : List Char) :
    matchTerms (PatternTerm.lazyStar cs :: terms) s =
      match lazyLoop cs (matchTerms terms) s with
      | some (taken, segments, left) => some (taken :: segments, left)
      | none => none := by
  rw [matchTerms]

theorem matchTerms_literal (lit : List Char) (terms : List PatternTerm) (s : List Char) :
    matchTerms (lit.map (fun c => PatternTerm.one (CharSet.char c)) ++ terms) s =
      match stripLiteral lit s with
      | some r =>
        match matchTerms terms r with
        | some (segments, left) => some (lit.map (fun c => [c]) ++ segments, left)
        | none => none
      | none => none := by
  induction lit generalizing s with
  | nil =>
    simp only [List.map_nil, List.nil_append, stripLiteral]
    cases matchTerms terms s with
    | none => rfl
    | some r => rfl
  | cons l ls ih =>
    cases s with
    | nil => simp [matchTerms, stripLiteral]
    | cons c rest =>
      rw [List.map_cons, List.cons_append, matchTerms_one]
      by_cases h : c = l
      · subst h
        rw [ih]
        simp only [CharSet.test, beq_self_eq_true, if_true, stripLiteral]
        cases stripLiteral ls rest with
        | none => rfl
        | some r =>
          simp only []
          cases matchTerms terms r with
          | none => rfl
          | some p => rfl
      · simp [stripLiteral, CharSet.test, h]

theorem matchTerms_bracket (s : List Char) :
    matchTerms [PatternTerm.one (CharSet.char ']')] s =
      match s with
      | ']' :: post => some ([[']']], post)
      | _ => none := by
  cases s with
  | nil => rfl
  | cons c rest =>
    by_cases h : c = ']'
    · subst h; rfl
    · simp [matchTerms, CharSet.test, h]

theorem lazyLoop_dot_bracket (s : List Char) :
    lazyLoop CharSet.dot (matchTerms [PatternTerm.one (CharSet.char ']')]) s =
      match s.dropWhile (fun c => c != ']') with
      | ']' :: post => some (s.takeWhile (fun c => c != ']'), [[']']], post)
      | _ => none := by
  induction s with
  | nil => rfl
  | cons c rest ih =>
    by_cases h : c = ']'
    · subst h; rfl
    · have hk : matchTerms [PatternTerm.one (CharSet.char ']')] (c :: rest) = none := by
        simp [matchTerms, CharSet.test, h]
      have hd : (c :: rest).dropWhile (fun c => c != ']') = rest.dropWhile (fun c => c != ']') :=
        List.dropWhile_cons_of_pos (by simpa using h)
      have ht : (c :: rest).takeWhile (fun c => c != ']') =
          c :: rest.takeWhile (fun c => c != ']') :=
        List.takeWhile_cons_of_pos (by simpa using h)
      rw [lazyLoop, hk, hd, ht]
      simp only [CharSet.test, if_true, ih]
      rcases dropWhile_ne_bracket rest with h0 | ⟨post, h0⟩
      · rw [h0]
      · rw [h0]; simp

theorem starLoop_space {R : Type} (k : List Char → Option R)
    (hk : ∀ c rest, isWhiteSpace c = true → k (c :: rest) = none) (s : List Char) :
    starLoop CharSet.space k s =
      (k (s.dropWhile isWhiteSpace)).map (fun r => (s.takeWhile isWhiteSpace, r)) := by
  induction s with
  | nil => rfl
  | cons c rest ih =>
    by_cases h : isWhiteSpace c = true
    · rw [starLoop, ih, List.dropWhile_cons_of_pos h, List.takeWhile_cons_of_pos h]
      simp only [CharSet.test, h, if_true]
      cases k (rest.dropWhile isWhiteSpace) with
      | none => simp [hk c rest h]
      | some r => rfl
    · rw [starLoop, List.dropWhile_cons_of_neg h, List.takeWhile_cons_of_neg h]
      simp [CharSet.test, h]

theorem matchTerms_tail (r : List Char) :
    matchTerms [PatternTerm.one (CharSet.char '['), PatternTerm.lazyStar CharSet.dot,
        PatternTerm.one (CharSet.char ']')] r =
      match r with
      | '[' :: r2 =>
        match r2.dropWhile (fun c => c != ']') with
        | ']' :: post => some ([['['], r2.takeWhile (fun c => c != ']'), [']']], post)
        | _ => none
      | _ => none := by
  cases r with
  | nil => rfl
  | cons c r2 =>
    by_cases h : c = '['
    · subst h
      rw [matchTerms_one, matchTerms_lazyStar, lazyLoop_dot_bracket]
      simp only [CharSet.test, beq_self_eq_true, if_true]
      rcases dropWhile_ne_bracket r2 with h0 | ⟨post, h0⟩
      · rw [h0]
      · rw [h0]; simp
    · rw [matchTerms_one]
      simp [CharSet.test, h]

theorem matchHere_eq_scanLiteral (s : List Char) : matchHere s = scanLiteral s := by
  unfold matchHere scanLiteral pluginsRegex
  rw [matchTerms_literal]
  cases stripLiteral pluginsKey s with
  | none => rfl
  | some r =>
    have hk : ∀ c rest, isWhiteSpace c = true →
        matchTerms [PatternTerm.one (CharSet.char '['), PatternTerm.lazyStar CharSet.dot,
          PatternTerm.one (CharSet.char ']')] (c :: rest) = none := by
      intro c rest hc
      rw [matchTerms_one]
      have : c ≠ '[' := by
        rintro rfl
        revert hc; decide
      simp [CharSet.test, this]
    simp only []
    rw [matchTerms_star, starLoop_space _ hk, matchTerms_tail]
    generalize r.takeWhile isWhiteSpace = w
    cases r.dropWhile isWhiteSpace with
    | nil => rfl
    | cons c r2 =>
      by_cases h : c = '['
      · subst h
        simp only []
        rcases dropWhile_ne_bracket r2 with h0 | ⟨post, h0⟩
        · rw [h0]; rfl
        · rw [h0]; rfl
      · have e1 : ∀ (f : List Char → Option (List (List Char) × List Char)),
            (match c :: r2 with
              | '[' :: r2 => f r2
              | _ => none) = none := by
          intro f
          split
          · rename_i heq
            simp only [List.cons.injEq] at heq
            exact absurd heq.1 h
          · rfl
        have e2 : ∀ (f : List Char → Option (List Char × List Char × List Char)),
            (match c :: r2 with
              | '[' :: r2 => f r2
              | _ => none) = none := by
          intro f
          split
          · rename_i heq
            simp only [List.cons.injEq] at heq
            exact absurd heq.1 h
          · rfl
        rw [e1, e2]
        rfl

/-- What one attempt of the regular expression accepts, stated on the text:
the literal `plugins:`, a run of white space, `[`, a capture without `]`, and
`]`. -/
theorem matchHere_eq_some_iff (s ws inner post : List Char) :
    matchHere s = some (ws, inner, post) ↔
      s = pluginsKey ++ ws ++ '[' :: inner ++ ']' :: post ∧
      (∀ c ∈ ws, isWhiteSpace c = true) ∧ ']' ∉ inner := by
  constructor
  · intro h
    rw [matchHere_eq_scanLiteral] at h
    unfold scanLiteral at h
    split at h
    · exact absurd h (by simp)
    · rename_i r hr
      rw [stripLiteral_eq_some_iff] at hr
      split at h
      · rename_i r2 hr2
        split at h
        · rename_i post2 hpost
          simp only [Option.some.injEq, Prod.mk.injEq] at h
          obtain ⟨h1, h2, h3⟩ := h
          subst h1 h2 h3 hr
          refine ⟨?_, ?_, ?_⟩
          · have e1 := List.takeWhile_append_dropWhile isWhiteSpace r
            have e2 := List.takeWhile_append_dropWhile (fun c => c != ']') r2
            rw [hr2] at e1
            rw [hpost] at e2
            conv_lhs => rw [← e1, ← e2]
            simp
          · intro c hc
            exact (List.mem_takeWhile_imp hc)
          · intro hm
            have := List.mem_takeWhile_imp hm
            simp at this
        · exact absurd h (by simp)
      · exact absurd h (by simp)
  · rintro ⟨rfl, hws, hin⟩
    have hs : stripLiteral pluginsKey (pluginsKey ++ ws ++ '[' :: inner ++ ']' :: post)
        = some (ws ++ '[' :: (inner ++ ']' :: post)) := by
      rw [stripLiteral_eq_some_iff]; simp
    rw [matchHere_eq_scanLiteral]
    unfold scanLiteral
    rw [hs]
    simp only [(span_whiteSpace hws).1, (span_whiteSpace hws).2,
      (span_bracket hin).1, (span_bracket hin).2]

/-! ## The leftmost search -/

theorem matchHere_nil : matchHere [] = none := by decide

theorem noMatchInside_nil (x : List Char) : NoMatchInside [] x := by
  intro a b h hb
  have : b = [] := by
    exact (List.append_eq_nil.mp h.symm).2
  exact absurd this hb

theorem noMatchInside_cons {c : Char} {pre x : List Char}
    (h0 : matchHere (c :: pre ++ x) = none) (h : NoMatchInside pre x) :
    NoMatchInside (c :: pre) x := by
  intro a b hab hb
  cases a with
  | nil =>
    simp only [List.nil_append] at hab
    rw [← hab]; exact h0
  | cons a0 as =>
    simp only [List.cons_append, List.cons.injEq] at hab
    exact h as b hab.2 hb

theorem pluginsRegexExec_eq_some_iff_aux (s pre ws inner post : List Char) :
    pluginsRegexExec s = some ⟨pre, ws, inner, post⟩ ↔
      ∃ x, s = pre ++ x ∧ matchHere x = some (ws, inner, post) ∧ NoMatchInside pre x := by
  constructor
  · intro h
    induction s generalizing pre with
    | nil => simp [pluginsRegexExec, matchHere_nil] at h
    | cons c cs ih =>
      unfold pluginsRegexExec at h
      split at h
      · rename_i ws1 inner1 post1 hm
        simp only [Option.some.injEq, RegExpMatch.mk.injEq] at h
        obtain ⟨rfl, rfl, rfl, rfl⟩ := h
        exact ⟨c :: cs, by simp, hm, noMatchInside_nil _⟩
      · rename_i hm
        split at h
        · rename_i m hm2
          simp only [Option.some.injEq, RegExpMatch.mk.injEq] at h
          obtain ⟨rfl, rfl, rfl, rfl⟩ := h
          obtain ⟨x, hx, hmx, hno⟩ := ih m.pre hm2
          refine ⟨x, by simp [hx], hmx, noMatchInside_cons ?_ hno⟩
          simpa [hx] using hm
        · exact absurd h (by simp)
  · rintro ⟨x, rfl, hm, hno⟩
    induction pre with
    | nil =>
      cases x with
      | nil => simp [matchHere_nil] at hm
      | cons c cs => simp [pluginsRegexExec, hm]
    | cons c pre ih =>
      have h0 : matchHere (c :: (pre ++ x)) = none := hno [] (c :: pre) rfl (by simp)
      have h1 : NoMatchInside pre x := fun a b hab hb => hno (c :: a) b (by simp [hab]) hb
      simp [pluginsRegexExec, h0, ih h1]

/-- The match found by the search, stated on the text: the text is the part
before the match, the matched literal and the part after it; the literal has
the shape the regular expression describes; and no attempt succeeds at an
earlier start index. -/
theorem pluginsRegexExec_eq_some_iff (s : List Char) (m : RegExpMatch) :
    pluginsRegexExec s = some m ↔
      s = m.pre ++ m.matched ++ m.post ∧
      (∀ c ∈ m.ws, isWhiteSpace c = true) ∧ ']' ∉ m.inner ∧
      NoMatchInside m.pre (m.matched ++ m.post) := by
  obtain ⟨pre, ws, inner, post⟩ := m
  rw [pluginsRegexExec_eq_some_iff_aux]
  constructor
  · rintro ⟨x, rfl, hm, hno⟩
    obtain ⟨rfl, hws, hin⟩ := (matchHere_eq_some_iff _ _ _ _).mp hm
    refine ⟨by simp [RegExpMatch.matched], hws, hin, ?_⟩
    simpa [RegExpMatch.matched] using hno
  · rintro ⟨rfl, hws, hin, hno⟩
    refine ⟨RegExpMatch.matched ⟨pre, ws, inner, post⟩ ++ post, by simp, ?_, hno⟩
    rw [matchHere_eq_some_iff]
    exact ⟨by simp [RegExpMatch.matched], hws, hin⟩

theorem pluginsRegexExec_eq_none_iff (s : List Char) :
    pluginsRegexExec s = none ↔ ∀ a b, s = a ++ b → matchHere b = none := by
  induction s with
  | nil =>
    constructor
    · intro _ a b h
      have : b = [] := by
        exact (List.append_eq_nil.mp h.symm).2
      rw [this]; exact matchHere_nil
    · intro _; simp [pluginsRegexExec, matchHere_nil]
  | cons c cs ih =>
    constructor
    · intro h a b hab
      unfold pluginsRegexExec at h
      split at h
      · exact absurd h (by simp)
      · rename_i hm
        split at h
        · exact absurd h (by simp)
        · rename_i hn
          cases a with
          | nil => simp only [List.nil_append] at hab; rw [← hab]; exact hm
          | cons a0 as =>
            simp only [List.cons_append, List.cons.injEq] at hab
            exact (ih.mp hn) as b hab.2
    · intro h
      have h0 : matchHere (c :: cs) = none := h [] (c :: cs) rfl
      have h1 : pluginsRegexExec cs = none := ih.mpr (fun a b hab => h (c :: a) b (by simp [hab]))
      simp [pluginsRegexExec, h0, h1]

theorem exists_first_bracket {l : List Char} (h : ']' ∈ l) :
    ∃ inner post, l = inner ++ ']' :: post ∧ ']' ∉ inner := by
  obtain ⟨post, hpost⟩ := dropWhile_ne_bracket_of_mem h
  refine ⟨l.takeWhile (fun c => c != ']'), post, ?_, ?_⟩
  · rw [← hpost, List.takeWhile_append_dropWhile]
  · intro hm
    have := List.mem_takeWhile_imp hm
    simp at this

theorem pluginsKey_eq : pluginsKey = 'p' :: "lugins:".toList := rfl

/-- An attempt that fails at a start index before a `p` keeps failing when the
text from that `p` on is replaced by any text that contains a `]`: the pattern
has its only `p` at its first position, so a match that starts earlier has its
`plugins:\s*\[` part before that `p`. -/
theorem matchHere_stable {b y z : List Char} (hb : b ≠ []) (hz : ']' ∈ z)
    (h : matchHere (b ++ z) = none) : matchHere (b ++ 'p' :: y) = none := by
  cases hm : matchHere (b ++ 'p' :: y) with
  | none => rfl
  | some r =>
    exfalso
    obtain ⟨ws, inner, post⟩ := r
    obtain ⟨heq, hws, -⟩ := (matchHere_eq_some_iff _ _ _ _).mp hm
    cases b with
    | nil => exact hb rfl
    | cons c b1 =>
      rw [pluginsKey_eq] at heq
      simp only [List.cons_append, List.cons.injEq] at heq
      obtain ⟨hc, heq⟩ := heq
      have hpre : ("lugins:".toList ++ ws ++ ['[']) <+: b1 ++ 'p' :: y :=
        ⟨inner ++ ']' :: post, by rw [heq]; simp⟩
      have hp : 'p' ∉ "lugins:".toList ++ ws ++ ['['] := by
        intro hmem
        simp only [List.mem_append, List.mem_singleton] at hmem
        rcases hmem with (hmem | hmem) | hmem
        · revert hmem; decide
        · have := hws _ hmem
          revert this; decide
        · revert hmem; decide
      obtain ⟨b2, hb2⟩ := prefix_of_prefix_append_cons hpre hp
      have hz2 : ']' ∈ b2 ++ z := List.mem_append_right _ hz
      obtain ⟨inner2, post2, he2, hin2⟩ := exists_first_bracket hz2
      have : matchHere (c :: b1 ++ z) = some (ws, inner2, post2) := by
        rw [matchHere_eq_some_iff]
        refine ⟨?_, hws, hin2⟩
        rw [pluginsKey_eq, hc, ← hb2]
        simp only [List.cons_append, List.append_assoc, List.nil_append, List.cons.injEq,
          true_and, List.append_cancel_left_eq]
        simpa using he2
      rw [this] at h
      exact absurd h (by simp)

theorem pluginsRegexExec_append {pre t : List Char} (h : NoMatchInside pre t) :
    pluginsRegexExec (pre ++ t) =
      match pluginsRegexExec t with
      | some m => some ⟨pre ++ m.pre, m.ws, m.inner, m.post⟩
      | none => none := by
  induction pre with
  | nil =>
    rw [List.nil_append]
    cases pluginsRegexExec t <;> rfl
  | cons c pre ih =>
    have h0 : matchHere (c :: (pre ++ t)) = none := h [] (c :: pre) rfl (by simp)
    have h1 : NoMatchInside pre t := fun a b hab hb => h (c :: a) b (by simp [hab]) hb
    rw [List.cons_append, pluginsRegexExec, h0, ih h1]
    cases pluginsRegexExec t <;> rfl

theorem importLine_eq : importLine =
    "import tailwindcss from \"@tailwindcss/vite\";".toList ++ ['\n'] := rfl

theorem noMatchInside_importLine (t : List Char) : NoMatchInside importLine t := by
  intro a b hab hb
  cases hm : matchHere (b ++ t) with
  | none => rfl
  | some r =>
    exfalso
    obtain ⟨ws, inner, post⟩ := r
    obtain ⟨heq, -, -⟩ := (matchHere_eq_some_iff _ _ _ _).mp hm
    rcases List.eq_nil_or_concat b with hnil | ⟨b1, c, hc⟩
    · exact hb hnil
    · rw [List.concat_eq_append] at hc
      subst hc
      rw [importLine_eq, ← List.append_assoc] at hab
      obtain ⟨hbody, hlast⟩ := List.append_inj' hab rfl
      simp only [List.cons.injEq, and_true] at hlast
      subst hlast
      have hpre : pluginsKey <+: b1 ++ '\n' :: t :=
        ⟨ws ++ '[' :: inner ++ ']' :: post, by
          have := heq.symm
          simpa using this⟩
      have h1 : pluginsKey <+: b1 := prefix_of_prefix_append_cons hpre (by decide)
      have h2 : pluginsKey <:+: "import tailwindcss from \"@tailwindcss/vite\";".toList := by
        rw [hbody]
        exact h1.isInfix.trans (List.suffix_append _ _).isInfix
      rw [← includes_iff] at h2
      revert h2; decide

/-! ## The replacement -/

theorem includes_newInner (trimmed : List Char) :
    includes (newInner trimmed) invocationToken = true := by
  unfold newInner
  split
  · rw [includes_iff]
    have h : invocationToken <:+: ", tailwindcss()".toList := by
      rw [← includes_iff]; decide
    exact h.trans (List.suffix_append _ _).isInfix
  · decide

theorem bracket_not_mem_newInner {trimmed : List Char} (h : ']' ∉ trimmed) :
    ']' ∉ newInner trimmed := by
  unfold newInner
  split
  · intro hm
    rcases List.mem_append.mp hm with hm | hm
    · exact h hm
    · revert hm; decide
  · decide

theorem replacePlugins_of_match {s : List Char} {m : RegExpMatch}
    (h : pluginsRegexExec s = some m) :
    replacePlugins s = m.pre ++ replacer m.matched m.inner ++ m.post := by
  simp [replacePlugins, h]

theorem replacePlugins_of_no_match {s : List Char} (h : pluginsRegexExec s = none) :
    replacePlugins s = s := by
  simp [replacePlugins, h]

theorem replacer_of_includes {matched inner : List Char}
    (h : includes inner invocationToken = true) : replacer matched inner = matched := by
  simp [replacer, h]

theorem replacer_of_not_includes {matched inner : List Char}
    (h : includes inner invocationToken = false) :
    replacer matched inner = "plugins: [".toList ++ newInner (trim inner) ++ [']'] := by
  simp [replacer, h]

theorem replacePlugins_of_includes {s : List Char} {m : RegExpMatch}
    (h : pluginsRegexExec s = some m) (hi : includes m.inner invocationToken = true) :
    replacePlugins s = s := by
  rw [replacePlugins_of_match h, replacer_of_includes hi]
  exact ((pluginsRegexExec_eq_some_iff s m).mp h).1.symm

theorem bracket_mem_matched_append (m : RegExpMatch) : ']' ∈ m.matched ++ m.post := by
  simp [RegExpMatch.matched]

/-- After a replacement the search finds the rewritten literal, at the same
start index, and its capture is the new contents. -/
theorem pluginsRegexExec_replacePlugins {s : List Char} {m : RegExpMatch}
    (h : pluginsRegexExec s = some m) (hi : includes m.inner invocationToken = false) :
    pluginsRegexExec (replacePlugins s) =
      some ⟨m.pre, [' '], newInner (trim m.inner), m.post⟩ := by
  obtain ⟨-, -, hin, hno⟩ := (pluginsRegexExec_eq_some_iff s m).mp h
  rw [replacePlugins_of_match h, replacer_of_not_includes hi, pluginsRegexExec_eq_some_iff]
  refine ⟨?_, ?_, bracket_not_mem_newInner (not_mem_trim hin), ?_⟩
  · simp [RegExpMatch.matched, pluginsKey]
  · show ∀ c ∈ [' '], isWhiteSpace c = true
    decide
  · intro a b hab hb
    have h0 := hno a b hab hb
    have := matchHere_stable (y := "lugins: [".toList ++ newInner (trim m.inner) ++ [']'] ++ m.post)
      hb (bracket_mem_matched_append m) h0
    simpa [RegExpMatch.matched, pluginsKey] using this

/-- The module reference has no white space and is not empty. -/
theorem moduleToken_no_whiteSpace : ∀ c ∈ moduleToken, isWhiteSpace c = false := by decide

theorem not_infix_of_not_mem {tok l : List Char} {c : Char} (hc : c ∈ tok) (hl : c ∉ l) :
    ¬ tok <:+: l := fun h => hl (h.subset hc)

/-- The replacement does not remove an occurrence of the module reference. -/
theorem moduleToken_infix_replacePlugins {s : List Char}
    (h : moduleToken <:+: s) : moduleToken <:+: replacePlugins s := by
  cases hex : pluginsRegexExec s with
  | none => rw [replacePlugins_of_no_match hex]; exact h
  | some m =>
    cases hi : includes m.inner invocationToken with
    | true => rw [replacePlugins_of_includes hex hi]; exact h
    | false =>
      obtain ⟨hs, hws, -, -⟩ := (pluginsRegexExec_eq_some_iff s m).mp hex
      rw [replacePlugins_of_match hex, replacer_of_not_includes hi]
      have hs2 : s = m.pre ++ 'p' :: ("lugins".toList ++ ':' :: (m.ws ++ '[' ::
          (m.inner ++ ']' :: m.post))) := by
        rw [hs]; simp [RegExpMatch.matched, pluginsKey]
      rw [hs2] at h
      rcases infix_split h (by decide) with h1 | h1
      · exact h1.trans
          ((List.prefix_append m.pre _).isInfix.trans (List.prefix_append _ m.post).isInfix)
      · rcases infix_split h1 (by decide) with h2 | h2
        · exact absurd h2 (by rw [← includes_iff]; decide)
        · rcases infix_split h2 (by decide) with h3 | h3
          · exfalso
            have hm : '@' ∈ m.ws := h3.subset (by decide)
            have := hws _ hm
            revert this; decide
          · rcases infix_split h3 (by decide) with h4 | h4
            · have h5 : moduleToken <:+: trim m.inner :=
                infix_trim (by decide) moduleToken_no_whiteSpace h4
              have h6 : moduleToken <:+: newInner (trim m.inner) := by
                unfold newInner
                split
                · exact h5.trans (List.prefix_append _ _).isInfix
                · rename_i hlen
                  have : trim m.inner = [] := by simpa using hlen
                  rw [this] at h5
                  exact absurd h5 (by rw [← includes_iff]; decide)
              obtain ⟨x, y, hxy⟩ := h6
              exact ⟨m.pre ++ "plugins: [".toList ++ x, y ++ ']' :: m.post, by
                rw [← hxy]; simp⟩
            · exact h4.trans ⟨m.pre ++ "plugins: [".toList ++ newInner (trim m.inner) ++ [']'],
                [], by simp⟩

/-! ## The import step -/

theorem addImport_of_includes {t : List Char} (h : includes t moduleToken = true) :
    addImport t = t := by
  simp [addImport, h]

theorem addImport_of_not_includes {t : List Char} (h : includes t moduleToken = false) :
    addImport t = importLine ++ t := by
  simp [addImport, h]

theorem includes_addImport (t : List Char) : includes (addImport t) moduleToken = true := by
  cases h : includes t moduleToken with
  | true => rw [addImport_of_includes h]; exact h
  | false =>
    rw [addImport_of_not_includes h, includes_iff]
    have h0 : moduleToken <:+: importLine := by rw [← includes_iff]; decide
    exact h0.trans (List.prefix_append _ _).isInfix

theorem pluginsRegexExec_importLine (t : List Char) :
    pluginsRegexExec (importLine ++ t) =
      match pluginsRegexExec t with
      | some m => some ⟨importLine ++ m.pre, m.ws, m.inner, m.post⟩
      | none => none :=
  pluginsRegexExec_append (noMatchInside_importLine t)

theorem replacePlugins_importLine (t : List Char) :
    replacePlugins (importLine ++ t) = importLine ++ replacePlugins t := by
  unfold replacePlugins
  rw [pluginsRegexExec_importLine]
  cases pluginsRegexExec t with
  | none => rfl
  | some m =>
    simp [replacer, RegExpMatch.matched]

/-! ## The registration step -/

theorem addPlugin_fst (s : List Char) : (addPlugin s).1 = replacePlugins s := by
  unfold addPlugin pluginsRegexTest
  cases h : pluginsRegexExec s with
  | none => simp [replacePlugins, h]
  | some m => simp

theorem addPlugin_of_match {s : List Char} {m : RegExpMatch}
    (h : pluginsRegexExec s = some m) :
    addPlugin s = (m.pre ++ replacer m.matched m.inner ++ m.post, Signal.updated) := by
  simp [addPlugin, pluginsRegexTest, h, replacePlugins]

theorem addPlugin_of_no_match {s : List Char} (h : pluginsRegexExec s = none) :
    addPlugin s = (s, Signal.warned) := by
  simp [addPlugin, pluginsRegexTest, h]

theorem replacePlugins_idem (s : List Char) :
    replacePlugins (replacePlugins s) = replacePlugins s := by
  cases hex : pluginsRegexExec s with
  | none => rw [replacePlugins_of_no_match hex, replacePlugins_of_no_match hex]
  | some m =>
    cases hi : includes m.inner invocationToken with
    | true => rw [replacePlugins_of_includes hex hi, replacePlugins_of_includes hex hi]
    | false =>
      exact replacePlugins_of_includes (pluginsRegexExec_replacePlugins hex hi)
        (includes_newInner _)

/-- A replacement changes the text: the rewritten literal has `tailwindcss(`
in its contents and the original one has not. -/
theorem replacePlugins_ne_of_not_includes {s : List Char} {m : RegExpMatch}
    (h : pluginsRegexExec s = some m) (hi : includes m.inner invocationToken = false) :
    replacePlugins s ≠ s := by
  intro he
  have h1 := pluginsRegexExec_replacePlugins h hi
  rw [he, h] at h1
  have h2 : m.inner = newInner (trim m.inner) := by
    have := congrArg (fun o => o.map RegExpMatch.inner) h1
    simpa using this
  have h3 := includes_newInner (trim m.inner)
  rw [← h2, hi] at h3
  exact absurd h3 (by simp)

theorem pluginsRegexExec_eq_none_of_no_key {s : List Char}
    (h : includes s pluginsKey = false) : pluginsRegexExec s = none := by
  rw [pluginsRegexExec_eq_none_iff]
  intro a b hab
  cases hm : matchHere b with
  | none => rfl
  | some r =>
    exfalso
    obtain ⟨ws, inner, post⟩ := r
    obtain ⟨heq, -, -⟩ := (matchHere_eq_some_iff _ _ _ _).mp hm
    rw [includes_eq_false_iff] at h
    exact h ⟨a, ws ++ '[' :: inner ++ ']' :: post, by rw [hab, heq]; simp⟩

theorem includes_key_addImport {t : List Char} (h : includes t pluginsKey = false) :
    includes (addImport t) pluginsKey = false := by
  cases hi : includes t moduleToken with
  | true => rw [addImport_of_includes hi]; exact h
  | false =>
    rw [addImport_of_not_includes hi, includes_eq_false_iff, importLine_eq, List.append_assoc]
    intro hk
    rcases infix_split hk (by decide) with h1 | h1
    · exact absurd h1 (by rw [← includes_iff]; decide)
    · exact absurd ((includes_iff _ _).mpr h1) (by simp [h])

theorem not_includes_of_whiteSpace {inner : List Char}
    (h : ∀ c ∈ inner, isWhiteSpace c = true) : includes inner invocationToken = false := by
  rw [includes_eq_false_iff]
  intro hi
  have := h 't' (hi.subset (by decide))
  revert this; decide

/-! ## The claims -/

/-- C1: for every configuration text, running the patcher (import injection,
then plugins-array injection) on its own output changes nothing. -/
theorem patchViteConfig_idempotent (t : List Char) :
    (patchViteConfig (patchViteConfig t).1).1 = (patchViteConfig t).1 := by
  have h1 : (patchViteConfig t).1 = replacePlugins (addImport t) := addPlugin_fst _
  have h2 : includes (replacePlugins (addImport t)) moduleToken = true := by
    rw [includes_iff]
    exact moduleToken_infix_replacePlugins ((includes_iff _ _).mp (includes_addImport t))
  rw [h1]
  unfold patchViteConfig
  rw [addImport_of_includes h2, addPlugin_fst, replacePlugins_idem]

/-- C2, as stated, fails: a text without any `plugins:` key and without the
module reference is not returned unchanged, the import line is put in front of
it (the warning branch is taken). -/
theorem patchViteConfig_without_plugins_key_changes :
    includes "export default defineConfig()".toList pluginsKey = false ∧
    pluginsRegexExec "export default defineConfig()".toList = none ∧
    (patchViteConfig "export default defineConfig()".toList).2 = Signal.warned ∧
    (patchViteConfig "export default defineConfig()".toList).1 ≠
      "export default defineConfig()".toList := by
  decide

/-- C2, amended: for every configuration text without any `plugins:` key the
registration step changes nothing and takes the warning branch, so the output
is the result of the import step: the text itself when it already contains
`@tailwindcss/vite`, and otherwise the text with the import line in front. -/
theorem patchViteConfig_without_plugins_key (t : List Char)
    (h : includes t pluginsKey = false) :
    pluginsRegexExec (addImport t) = none ∧
    patchViteConfig t = (addImport t, Signal.warned) ∧
    (includes t moduleToken = true → (patchViteConfig t).1 = t) ∧
    (includes t moduleToken = false → (patchViteConfig t).1 = importLine ++ t) := by
  have h0 := pluginsRegexExec_eq_none_of_no_key (includes_key_addImport h)
  have h1 : patchViteConfig t = (addImport t, Signal.warned) := addPlugin_of_no_match h0
  refine ⟨h0, h1, ?_, ?_⟩
  · intro hi; rw [h1, addImport_of_includes hi]
  · intro hi; rw [h1, addImport_of_not_includes hi]

/-- An instance of the preceding statement on a concrete text. -/
theorem patchViteConfig_without_plugins_key_witness :
    includes "export default defineConfig()".toList pluginsKey = false ∧
    patchViteConfig "export default defineConfig()".toList =
      (importLine ++ "export default defineConfig()".toList, Signal.warned) := by
  refine ⟨by decide, ?_⟩
  have h := patchViteConfig_without_plugins_key "export default defineConfig()".toList
    (by decide)
  rw [h.2.1, addImport_of_not_includes (by decide)]

/-- C3, as stated, fails: on a text without the module reference that has a
plugins literal, the import line is the first line but the text after it is
not the original text. -/
theorem patchViteConfig_import_then_changed_text :
    includes "plugins: []".toList moduleToken = false ∧
    (patchViteConfig "plugins: []".toList).1 =
      importLine ++ "plugins: [tailwindcss()]".toList ∧
    (patchViteConfig "plugins: []".toList).1 ≠ importLine ++ "plugins: []".toList := by
  decide

/-- C3, amended: for every configuration text that does not contain
`@tailwindcss/vite`, the output is the import line followed by the result of
the registration step on the text; the text follows unchanged when it has no
plugins literal, or when the contents of its first plugins literal already
contain `tailwindcss(`. -/
theorem patchViteConfig_import_injection (t : List Char)
    (h : includes t moduleToken = false) :
    (patchViteConfig t).1 = importLine ++ replacePlugins t ∧
    (pluginsRegexExec t = none → (patchViteConfig t).1 = importLine ++ t) ∧
    (∀ m, pluginsRegexExec t = some m → includes m.inner invocationToken = true →
      (patchViteConfig t).1 = importLine ++ t) := by
  have h1 : (patchViteConfig t).1 = importLine ++ replacePlugins t := by
    unfold patchViteConfig
    rw [addPlugin_fst, addImport_of_not_includes h, replacePlugins_importLine]
  refine ⟨h1, ?_, ?_⟩
  · intro hn; rw [h1, replacePlugins_of_no_match hn]
  · intro m hm hi; rw [h1, replacePlugins_of_includes hm hi]

/-- An instance of the preceding statement on a concrete text. -/
theorem patchViteConfig_import_injection_witness :
    includes "plugins: [react()]".toList moduleToken = false ∧
    (patchViteConfig "plugins: [react()]".toList).1 =
      importLine ++ replacePlugins "plugins: [react()]".toList :=
  ⟨by decide, (patchViteConfig_import_injection "plugins: [react()]".toList (by decide)).1⟩

/-- C4, as stated, fails: a text that contains `@tailwindcss/vite` and
`tailwindcss(`, the latter outside the contents of the first plugins literal,
is changed. -/
theorem patchViteConfig_changes_text_with_both_tokens :
    includes ("import tailwindcss from \"@tailwindcss/vite\";\n" ++
      "const tw = tailwindcss();\nplugins: [tw]").toList moduleToken = true ∧
    includes ("import tailwindcss from \"@tailwindcss/vite\";\n" ++
      "const tw = tailwindcss();\nplugins: [tw]").toList invocationToken = true ∧
    (patchViteConfig ("import tailwindcss from \"@tailwindcss/vite\";\n" ++
      "const tw = tailwindcss();\nplugins: [tw]").toList).1 =
      ("import tailwindcss from \"@tailwindcss/vite\";\n" ++
      "const tw = tailwindcss();\nplugins: [tw, tailwindcss()]").toList ∧
    (patchViteConfig ("import tailwindcss from \"@tailwindcss/vite\";\n" ++
      "const tw = tailwindcss();\nplugins: [tw]").toList).1 ≠
      ("import tailwindcss from \"@tailwindcss/vite\";\n" ++
      "const tw = tailwindcss();\nplugins: [tw]").toList := by
  decide

/-- C4, amended: for every configuration text that contains
`@tailwindcss/vite` (so for every text that contains both it and
`tailwindcss(`), the output is the text itself if and only if the text has no
plugins literal or the captured contents of its first plugins literal contain
`tailwindcss(`. -/
theorem patchViteConfig_already_patched (t : List Char)
    (h : includes t moduleToken = true) :
    (patchViteConfig t).1 = t ↔
      (pluginsRegexExec t = none ∨
        ∃ m, pluginsRegexExec t = some m ∧ includes m.inner invocationToken = true) := by
  have h1 : (patchViteConfig t).1 = replacePlugins t := by
    unfold patchViteConfig
    rw [addPlugin_fst, addImport_of_includes h]
  rw [h1]
  constructor
  · intro he
    cases hex : pluginsRegexExec t with
    | none => exact Or.inl rfl
    | some m =>
      cases hi : includes m.inner invocationToken with
      | true => exact Or.inr ⟨m, rfl, hi⟩
      | false => exact absurd he (replacePlugins_ne_of_not_includes hex hi)
  · rintro (hn | ⟨m, hm, hi⟩)
    · exact replacePlugins_of_no_match hn
    · exact replacePlugins_of_includes hm hi

/-- An instance of the preceding statement on two concrete texts with both
tokens: one without a plugins literal, and one whose first plugins literal
has `tailwindcss(` in its captured contents. -/
theorem patchViteConfig_already_patched_witness :
    (includes ("import tailwindcss from \"@tailwindcss/vite\";\n" ++
        "const p = [tailwindcss()];\nexport default \x7b plugins: p \x7d").toList
        moduleToken = true ∧
      includes ("import tailwindcss from \"@tailwindcss/vite\";\n" ++
        "const p = [tailwindcss()];\nexport default \x7b plugins: p \x7d").toList
        invocationToken = true ∧
      pluginsRegexExec ("import tailwindcss from \"@tailwindcss/vite\";\n" ++
        "const p = [tailwindcss()];\nexport default \x7b plugins: p \x7d").toList = none ∧
      (patchViteConfig ("import tailwindcss from \"@tailwindcss/vite\";\n" ++
        "const p = [tailwindcss()];\nexport default \x7b plugins: p \x7d").toList).1 =
        ("import tailwindcss from \"@tailwindcss/vite\";\n" ++
        "const p = [tailwindcss()];\nexport default \x7b plugins: p \x7d").toList) ∧
    (includes ("import tailwindcss from \"@tailwindcss/vite\";\n" ++
        "plugins: [react(), tailwindcss()]").toList moduleToken = true ∧
      pluginsRegexExec ("import tailwindcss from \"@tailwindcss/vite\";\n" ++
        "plugins: [react(), tailwindcss()]").toList =
        some ⟨importLine, [' '], "react(), tailwindcss()".toList, []⟩ ∧
      includes "react(), tailwindcss()".toList invocationToken = true ∧
      (patchViteConfig ("import tailwindcss from \"@tailwindcss/vite\";\n" ++
        "plugins: [react(), tailwindcss()]").toList).1 =
        ("import tailwindcss from \"@tailwindcss/vite\";\n" ++
        "plugins: [react(), tailwindcss()]").toList) :=
  ⟨⟨by decide, by decide, by decide,
      (patchViteConfig_already_patched _ (by decide)).mpr (Or.inl (by decide))⟩,
   ⟨by decide, by decide, by decide,
      (patchViteConfig_already_patched _ (by decide)).mpr
        (Or.inr ⟨⟨importLine, [' '], "react(), tailwindcss()".toList, []⟩,
          by decide, by decide⟩)⟩⟩

/-- C5: when the captured contents of the first plugins literal have a
character that is not white space and do not contain `tailwindcss(`, the
registration step replaces that literal by `plugins: [`, the trimmed contents
and `, tailwindcss()]`, and leaves the text before and after it as it is; so
`plugins: [react()]` becomes `plugins: [react(), tailwindcss()]`. -/
theorem addPlugin_nonempty_contents (s : List Char) (m : RegExpMatch)
    (hm : pluginsRegexExec s = some m)
    (hne : ∃ c ∈ m.inner, isWhiteSpace c = false)
    (hi : includes m.inner invocationToken = false) :
    s = m.pre ++ m.matched ++ m.post ∧
    addPlugin s =
      (m.pre ++ ("plugins: [".toList ++ trim m.inner ++ ", tailwindcss()]".toList) ++ m.post,
        Signal.updated) ∧
    addPlugin "plugins: [react()]".toList =
      ("plugins: [react(), tailwindcss()]".toList, Signal.updated) := by
  refine ⟨((pluginsRegexExec_eq_some_iff s m).mp hm).1, ?_, by decide⟩
  rw [addPlugin_of_match hm, replacer_of_not_includes hi]
  have hlen : (trim m.inner).length ≠ 0 := fun h0 =>
    trim_ne_nil hne (List.length_eq_zero.mp h0)
  simp [newInner, hlen]

/-- An instance of the preceding statement on a concrete text. -/
theorem addPlugin_nonempty_contents_witness :
    pluginsRegexExec "export default \x7b plugins:  [ react() ], base: [] \x7d".toList =
      some ⟨"export default \x7b ".toList, [' ', ' '], " react() ".toList,
        ", base: [] \x7d".toList⟩ ∧
    addPlugin "export default \x7b plugins:  [ react() ], base: [] \x7d".toList =
      ("export default \x7b plugins: [react(), tailwindcss()], base: [] \x7d".toList,
        Signal.updated) := by
  refine ⟨by decide, ?_⟩
  have h := (addPlugin_nonempty_contents
    "export default \x7b plugins:  [ react() ], base: [] \x7d".toList
    ⟨"export default \x7b ".toList, [' ', ' '], " react() ".toList, ", base: [] \x7d".toList⟩
    (by decide) ⟨'r', by decide, by decide⟩ (by decide)).2.1
  rw [h]
  decide

/-- C6: when the captured contents of the first plugins literal are empty or
only white space, the registration step replaces that literal by exactly
`plugins: [tailwindcss()]`, and leaves the text before and after it as it is;
so `plugins: []` becomes `plugins: [tailwindcss()]`. -/
theorem addPlugin_empty_contents (s : List Char) (m : RegExpMatch)
    (hm : pluginsRegexExec s = some m)
    (hws : ∀ c ∈ m.inner, isWhiteSpace c = true) :
    s = m.pre ++ m.matched ++ m.post ∧
    addPlugin s = (m.pre ++ "plugins: [tailwindcss()]".toList ++ m.post, Signal.updated) ∧
    addPlugin "plugins: []".toList = ("plugins: [tailwindcss()]".toList, Signal.updated) := by
  refine ⟨((pluginsRegexExec_eq_some_iff s m).mp hm).1, ?_, by decide⟩
  rw [addPlugin_of_match hm, replacer_of_not_includes (not_includes_of_whiteSpace hws),
    trim_eq_nil hws]
  simp [newInner]

/-- An instance of the preceding statement on a concrete text. -/
theorem addPlugin_empty_contents_witness :
    pluginsRegexExec "export default \x7b plugins:\n[ \t\n], base: [] \x7d".toList =
      some ⟨"export default \x7b ".toList, ['\n'], " \t\n".toList,
        ", base: [] \x7d".toList⟩ ∧
    addPlugin "export default \x7b plugins:\n[ \t\n], base: [] \x7d".toList =
      ("export default \x7b plugins: [tailwindcss()], base: [] \x7d".toList,
        Signal.updated) := by
  refine ⟨by decide, ?_⟩
  have h := (addPlugin_empty_contents
    "export default \x7b plugins:\n[ \t\n], base: [] \x7d".toList
    ⟨"export default \x7b ".toList, ['\n'], " \t\n".toList, ", base: [] \x7d".toList⟩
    (by decide) (by decide)).2.1
  rw [h]
  decide

/-- C7: only the first plugins literal is patched: the text on which the
registration step runs is the part before the first match, the matched literal
and the part after it, and the result is the same part before, what the
callback returns for the literal (the literal itself or the rewritten
literal), and the same part after, with every later plugins literal in it; so
in `plugins: [a], plugins: [b]` only the first literal is rewritten. -/
theorem addPlugin_patches_first_literal_only (s : List Char) (m : RegExpMatch)
    (hm : pluginsRegexExec s = some m) :
    s = m.pre ++ m.matched ++ m.post ∧
    NoMatchInside m.pre (m.matched ++ m.post) ∧
    (addPlugin s).1 = m.pre ++ replacer m.matched m.inner ++ m.post ∧
    (replacer m.matched m.inner = m.matched ∨
      replacer m.matched m.inner =
        "plugins: [".toList ++ newInner (trim m.inner) ++ [']']) ∧
    (addPlugin "plugins: [a], plugins: [b]".toList).1 =
      "plugins: [a, tailwindcss()], plugins: [b]".toList := by
  obtain ⟨h1, -, -, h2⟩ := (pluginsRegexExec_eq_some_iff s m).mp hm
  refine ⟨h1, h2, ?_, ?_, by decide⟩
  · rw [addPlugin_of_match hm]
  · cases hi : includes m.inner invocationToken with
    | true => exact Or.inl (replacer_of_includes hi)
    | false => exact Or.inr (replacer_of_not_includes hi)

/-- An instance of the preceding statement on a concrete text. -/
theorem addPlugin_patches_first_literal_only_witness :
    pluginsRegexExec "a plugins: [x] b plugins: [y] c".toList =
      some ⟨"a ".toList, [' '], ['x'], " b plugins: [y] c".toList⟩ ∧
    (addPlugin "a plugins: [x] b plugins: [y] c".toList).1 =
      "a ".toList ++ "plugins: [x, tailwindcss()]".toList ++ " b plugins: [y] c".toList := by
  refine ⟨by decide, ?_⟩
  have h := (addPlugin_patches_first_literal_only "a plugins: [x] b plugins: [y] c".toList
    ⟨"a ".toList, [' '], ['x'], " b plugins: [y] c".toList⟩ (by decide)).2.2.1
  rw [h]
  decide

/-- C8: when the captured contents of the first plugins literal already
contain `tailwindcss(`, the callback returns the matched literal itself and
the registration step leaves the whole text unchanged. -/
theorem addPlugin_already_added (s : List Char) (m : RegExpMatch)
    (hm : pluginsRegexExec s = some m)
    (hi : includes m.inner invocationToken = true) :
    replacer m.matched m.inner = m.matched ∧ addPlugin s = (s, Signal.updated) := by
  refine ⟨replacer_of_includes hi, ?_⟩
  rw [addPlugin_of_match hm, replacer_of_includes hi]
  rw [← ((pluginsRegexExec_eq_some_iff s m).mp hm).1]

/-- An instance of the preceding statement on a concrete text. -/
theorem addPlugin_already_added_witness :
    pluginsRegexExec "plugins:  [react(),\n tailwindcss(), ]".toList =
      some ⟨[], [' ', ' '], "react(),\n tailwindcss(), ".toList, []⟩ ∧
    includes "react(),\n tailwindcss(), ".toList invocationToken = true ∧
    addPlugin "plugins:  [react(),\n tailwindcss(), ]".toList =
      ("plugins:  [react(),\n tailwindcss(), ]".toList, Signal.updated) :=
  ⟨by decide, by decide,
    (addPlugin_already_added "plugins:  [react(),\n tailwindcss(), ]".toList
      ⟨[], [' ', ' '], "react(),\n tailwindcss(), ".toList, []⟩ (by decide) (by decide)).2⟩

/-- C9: for every configuration text in which the regular expression finds a
plugins literal, the output contains `@tailwindcss/vite`, the regular
expression finds a plugins literal in the output, and the captured contents
of the first one contain `tailwindcss(`. -/
theorem patchViteConfig_ensures_import_and_registration (t : List Char)
    (h : pluginsRegexTest t = true) :
    includes (patchViteConfig t).1 moduleToken = true ∧
    ∃ m, pluginsRegexExec (patchViteConfig t).1 = some m ∧
      includes m.inner invocationToken = true := by
  have h1 : (patchViteConfig t).1 = replacePlugins (addImport t) := addPlugin_fst _
  rw [h1]
  constructor
  · rw [includes_iff]
    exact moduleToken_infix_replacePlugins ((includes_iff _ _).mp (includes_addImport t))
  · have h2 : ∃ m, pluginsRegexExec (addImport t) = some m := by
      obtain ⟨m0, hm0⟩ := Option.isSome_iff_exists.mp h
      cases hi : includes t moduleToken with
      | true => rw [addImport_of_includes hi]; exact ⟨m0, hm0⟩
      | false =>
        rw [addImport_of_not_includes hi, pluginsRegexExec_importLine, hm0]
        exact ⟨_, rfl⟩
    obtain ⟨m, hm⟩ := h2
    cases hi : includes m.inner invocationToken with
    | true =>
      rw [replacePlugins_of_includes hm hi]
      exact ⟨m, hm, hi⟩
    | false =>
      exact ⟨_, pluginsRegexExec_replacePlugins hm hi, includes_newInner _⟩

/-- An instance of the preceding statement on a concrete text. -/
theorem patchViteConfig_ensures_import_and_registration_witness :
    pluginsRegexTest "plugins: [react()]".toList = true ∧
    includes (patchViteConfig "plugins: [react()]".toList).1 moduleToken = true ∧
    ∃ m, pluginsRegexExec (patchViteConfig "plugins: [react()]".toList).1 = some m ∧
      includes m.inner invocationToken = true :=
  ⟨by decide,
    patchViteConfig_ensures_import_and_registration "plugins: [react()]".toList (by decide)⟩

/-! ## The file-generation steps -/

theorem createdDirectories_append (a b : List Effect) :
    createdDirectories (a ++ b) = createdDirectories a ++ createdDirectories b := by
  induction a with
  | nil => rfl
  | cons e rest ih => cases e <;> simp [createdDirectories, ih]

theorem writtenFiles_append (a b : List Effect) :
    writtenFiles (a ++ b) = writtenFiles a ++ writtenFiles b := by
  induction a with
  | nil => rfl
  | cons e rest ih => cases e <;> simp [writtenFiles, ih]

theorem setupSteps_no_files (name : String) :
    createdDirectories (setupSteps name) = [] ∧ writtenFiles (setupSteps name) = [] := by
  simp [setupSteps, run, createdDirectories, writtenFiles]

theorem viteConfigStep_files (fs : FileSystem) :
    createdDirectories (viteConfigStep fs) = [] ∧
    (writtenFiles (viteConfigStep fs)).filter insideGeneratedFolder = [] ∧
    (writtenFiles (viteConfigStep fs)).count appPath = 0 := by
  unfold viteConfigStep viteConfigFile
  cases fs.existsSync [viteConfigJs] <;> cases fs.existsSync [viteConfigTs] <;>
    simp [createdDirectories, writtenFiles, signalEffect] <;>
    (try cases (patchViteConfig (fs.readFileSync [viteConfigJs])).2) <;>
    (try cases (patchViteConfig (fs.readFileSync [viteConfigTs])).2) <;>
    simp [createdDirectories, writtenFiles, signalEffect] <;> decide

theorem indexCssStep_files (fs : FileSystem) :
    createdDirectories (indexCssStep fs) = [] ∧
    (writtenFiles (indexCssStep fs)).filter insideGeneratedFolder = [] ∧
    (writtenFiles (indexCssStep fs)).count appPath = 0 := by
  unfold indexCssStep
  cases fs.existsSync indexCssPath
  · simp [createdDirectories, writtenFiles]
  · simp [createdDirectories, writtenFiles]; decide

theorem mainStep_files (fs : FileSystem) :
    createdDirectories (mainStep fs) = [] ∧
    (writtenFiles (mainStep fs)).filter insideGeneratedFolder = [] ∧
    (writtenFiles (mainStep fs)).count appPath = 0 := by
  unfold mainStep
  cases fs.existsSync mainPath
  · simp [createdDirectories, writtenFiles]
  · simp [createdDirectories, writtenFiles]; decide

theorem generateFiles_files :
    createdDirectories generateFiles =
      [["src", "routes"], ["src", "layouts"], ["src", "pages"]] ∧
    writtenFiles generateFiles =
      [["src", "routes", "AppRoutes.jsx"], ["src", "layouts", "MainLayout.jsx"],
       ["src", "pages", "Home.jsx"], ["src", "pages", "About.jsx"],
       ["src", "pages", "NotFound.jsx"], ["src", "App.jsx"]] := by
  constructor <;> rfl

/-- The folders and files of a run, whatever the argument and the file
system: the three folders, the five files directly inside them, and the
application root once. -/
theorem script_files (argument : Option String) (fs : FileSystem) :
    createdDirectories (script argument fs) =
      [["src", "routes"], ["src", "layouts"], ["src", "pages"]] ∧
    (writtenFiles (script argument fs)).filter insideGeneratedFolder =
      [["src", "routes", "AppRoutes.jsx"], ["src", "layouts", "MainLayout.jsx"],
       ["src", "pages", "Home.jsx"], ["src", "pages", "About.jsx"],
       ["src", "pages", "NotFound.jsx"]] ∧
    (writtenFiles (script argument fs)).count ["src", "App.jsx"] = 1 := by
  obtain ⟨s1, s2⟩ := setupSteps_no_files (projectName argument)
  obtain ⟨v1, v2, v3⟩ := viteConfigStep_files fs
  obtain ⟨i1, i2, i3⟩ := indexCssStep_files fs
  obtain ⟨m1, m2, m3⟩ := mainStep_files fs
  obtain ⟨g1, g2⟩ := generateFiles_files
  have a0 : appPath = ["src", "App.jsx"] := rfl
  rw [a0] at v3 i3 m3
  refine ⟨?_, ?_, ?_⟩
  · simp only [script, createdDirectories_append, s1, v1, i1, m1, g1]
    rfl
  · simp only [script, writtenFiles_append, List.filter_append, s2, v2, i2, m2, g2]
    rfl
  · simp only [script, writtenFiles_append, List.count_append, s2, v3, i3, m3, g2]
    rfl

/-- C10, as stated, fails: in a run where every optional file exists, five
files, not six, are written inside the three folders. -/
theorem script_writes_five_files_inside_folders :
    ((writtenFiles (script none ⟨fun _ => true, fun _ => []⟩)).filter
      insideGeneratedFolder).length = 5 ∧
    ((writtenFiles (script none ⟨fun _ => true, fun _ => []⟩)).filter
      insideGeneratedFolder).length ≠ 6 := by
  rw [(script_files none ⟨fun _ => true, fun _ => []⟩).2.1]
  decide

/-- C10, amended: on every run, whatever the argument and whichever of the
optional files exist, the script creates the three folders `src/routes`,
`src/layouts` and `src/pages`, writes five files directly inside them
(`AppRoutes.jsx`, `MainLayout.jsx`, `Home.jsx`, `About.jsx`, `NotFound.jsx`)
and writes the application root `src/App.jsx` once: six files in all. -/
theorem script_generates_folders_and_files (argument : Option String) (fs : FileSystem) :
    createdDirectories (script argument fs) =
      [["src", "routes"], ["src", "layouts"], ["src", "pages"]] ∧
    (writtenFiles (script argument fs)).filter insideGeneratedFolder =
      [["src", "routes", "AppRoutes.jsx"], ["src", "layouts", "MainLayout.jsx"],
       ["src", "pages", "Home.jsx"], ["src", "pages", "About.jsx"],
       ["src", "pages", "NotFound.jsx"]] ∧
    ((writtenFiles (script argument fs)).filter insideGeneratedFolder).length = 5 ∧
    (writtenFiles (script argument fs)).count ["src", "App.jsx"] = 1 := by
  obtain ⟨h1, h2, h3⟩ := script_files argument fs
  exact ⟨h1, h2, by rw [h2]; rfl, h3⟩

end CreateReactFast
